import Mathlib

/-!
Verification of the crypto-supervisor core: a shallow embedding of the
order-book maintenance in `supervisor/connectors/binance.py`, the rolling
window in `supervisor/processors/rolling_window.py`, the dispatcher in
`supervisor/processors/handler.py`, and the price-move alert engine in
`supervisor/alerts/engine.py`.  Python floats are modelled as `ℚ`,
epoch-millisecond timestamps as `ℤ`, deques as lists whose head is the
front of the deque.
-/

namespace CryptoSupervisor

/- Core marks rational arithmetic `@[irreducible]`; concrete evaluation
of the embedded functions by `decide` needs it unfolded. -/
attribute [local semireducible] Rat.add Rat.sub Rat.mul Rat.inv

/-! ## supervisor/processors/rolling_window.py -/

/-- A `(timestamp, value)` sample as kept by the rolling windows. -/
abbrev Sample := ℤ × ℚ

/-- The per-symbol history map `self._hist` of `RollingWindowMixin`
(a `defaultdict(deque)`): a key that was never touched maps to the empty
deque. -/
structure RWState where
  hist : String → List Sample

/-- `RollingWindowMixin._push(sym, ts, val)`: append `(ts, val)` to the
symbol's deque, then pop from the front while the front timestamp is
`< ts - window_ms`.  Returns the updated state together with the deque
the Python method returns. -/
def RollingWindowMixin.push (windowMs : ℤ) (st : RWState) (sym : String)
    (ts : ℤ) (val : ℚ) : RWState × List Sample :=
  let dq := (st.hist sym ++ [(ts, val)]).dropWhile (fun s => s.1 < ts - windowMs)
  (⟨fun k => if k = sym then dq else st.hist k⟩, dq)

/-! ## handler.py / engine.py — alert dispatch with retry -/

/-- `TickHandler.MAX_RETRIES`. -/
def MAX_RETRIES : ℕ := 2

/-- `TickHandler.RETRY_DELAY_S`. -/
def RETRY_DELAY_S : ℕ := 5

/-- `AlertEngine.send` (alerts/engine.py): awaits
`self.email_sender.send(subject, message)` — a `bool`, supplied here as
`emailOk` — logs an error when it is false, and then falls off the end of
the function body, so its Python return value is `None`, modelled as
`none : Option Bool`. -/
def AlertEngine.send (emailOk : Bool) : Option Bool :=
  let _ok := emailOk
  none

/-- Python truthiness of the value `_dispatch_with_retry` branches on in
`if await self.alert_engine.send(alert):` — `None` is falsy. -/
def pyTruthyOptBool : Option Bool → Bool
  | none => false
  | some b => b

/-- The loop of `TickHandler._dispatch_with_retry`:
`for attempt in range(1 + MAX_RETRIES): if await send(alert): return …`.
`emailOutcomes n` is the result the e-mail collaborator would deliver on
the `n`-th attempt (0-based), `remaining` is the number of loop
iterations left and `made` the attempts already made.  The result is
`(total attempts made, gaveUp)` where `gaveUp` records falling through
the loop to the `logger.error("Giving up on alert: …")` line. -/
def dispatchLoop (emailOutcomes : ℕ → Bool) : ℕ → ℕ → ℕ × Bool
  | 0, made => (made, true)
  | remaining + 1, made =>
    if pyTruthyOptBool (AlertEngine.send (emailOutcomes made)) then
      (made + 1, false)
    else
      dispatchLoop emailOutcomes remaining (made + 1)

/-- `TickHandler._dispatch_with_retry` for one alert. -/
def dispatchWithRetry (emailOutcomes : ℕ → Bool) : ℕ × Bool :=
  dispatchLoop emailOutcomes (1 + MAX_RETRIES) 0

/-! ## supervisor/connectors/binance.py — order-book maintenance -/

/-- One side of the book: Python `dict[float, float]` (price → quantity),
modelled as an insertion-ordered association list with unique keys. -/
abbrev Book := List (ℚ × ℚ)

/-- Python dict lookup `d.get(p)` / `d[p]`. -/
def dictLookup (b : Book) (p : ℚ) : Option ℚ :=
  match b with
  | [] => none
  | e :: rest => if e.1 = p then some e.2 else dictLookup rest p

/-- Python dict assignment `d[p] = v`: overwrite the existing entry in
place, or append a new key at the end. -/
def dictInsert (b : Book) (p v : ℚ) : Book :=
  match b with
  | [] => [(p, v)]
  | e :: rest => if e.1 = p then (p, v) :: rest else e :: dictInsert rest p v

/-- Python `d.pop(p, None)`: drop the entry with key `p`, if present
(dict keys are unique, so this is a filter). -/
def dictPop (b : Book) (p : ℚ) : Book :=
  b.filter (fun e => !(e.1 == p))

/-- One `(price, qty)` pair of the `_apply_delta` loop: `qty == 0`
removes the level, any other quantity upserts it. -/
def applyLevel (b : Book) (e : ℚ × ℚ) : Book :=
  if e.2 = 0 then dictPop b e.1 else dictInsert b e.1 e.2

/-- Apply all `(price, qty)` pairs of one side of a delta, in order. -/
def applyEntries (b : Book) (es : List (ℚ × ℚ)) : Book :=
  es.foldl applyLevel b

/-- `_top_of_book`: the `(price, qty)` entry with maximal (bid) or
minimal (ask) price, `none` when the side is empty.  Python
`max(items, key=…)` keeps the first of equal keys; keys are unique, so
ties cannot occur. -/
def top_of_book (isBid : Bool) (b : Book) : Option (ℚ × ℚ) :=
  match b with
  | [] => none
  | e :: rest =>
    some (rest.foldl
      (fun acc x => if (if isBid then acc.1 < x.1 else x.1 < acc.1) then x else acc) e)

/-- A REST depth snapshot `{lastUpdateId, bids, asks}`. -/
structure Snapshot where
  lastUpdateId : ℤ
  bids : List (ℚ × ℚ)
  asks : List (ℚ × ℚ)

/-- One side of `_init_book_from_snapshot`: the dict comprehension
keeping only levels with `qty > 0`. -/
def initBook (levels : List (ℚ × ℚ)) : Book :=
  (levels.filter (fun e => 0 < e.2)).foldl (fun b e => dictInsert b e.1 e.2) []

/-- The connector's per-symbol book state: `self._bids`, `self._asks`
and `self._last_id`, keyed by the configured symbol name. -/
structure ConnState where
  bids : String → Book
  asks : String → Book
  lastId : String → ℤ

/-- One `depthUpdate` message: update-id range `[U, u]`, event time `E`,
and the `b` / `a` lists of `(price, qty)` pairs. -/
structure DepthMsg where
  U : ℤ
  u : ℤ
  E : ℤ
  b : List (ℚ × ℚ)
  a : List (ℚ × ℚ)

/-- The normalized `depth` event `_handle_depth` emits; `bids`/`asks`
are the optional truncated ladders (`depth_levels = 0` omits them). -/
structure DepthEvent where
  symbol : String
  timestamp : ℤ
  best_bid : ℚ × ℚ
  best_ask : ℚ × ℚ
  price : ℚ
  bids : Option (List (ℚ × ℚ))
  asks : Option (List (ℚ × ℚ))
deriving DecidableEq

/-- `_resync_symbol` followed by `_init_book_from_snapshot`: replace the
symbol's book wholesale with the freshly downloaded snapshot `snap`. -/
def resyncSymbol (st : ConnState) (sym : String) (snap : Snapshot) : ConnState :=
  ⟨fun s => if s = sym then initBook snap.bids else st.bids s,
   fun s => if s = sym then initBook snap.asks else st.asks s,
   fun s => if s = sym then snap.lastUpdateId else st.lastId s⟩

/-- `_apply_delta`: apply the `b` pairs to the bid side and the `a`
pairs to the ask side of `sym`'s book (`last_update_id` untouched). -/
def applyDelta (st : ConnState) (sym : String) (msg : DepthMsg) : ConnState :=
  ⟨fun s => if s = sym then applyEntries (st.bids sym) msg.b else st.bids s,
   fun s => if s = sym then applyEntries (st.asks sym) msg.a else st.asks s,
   st.lastId⟩

/-- `BinanceConnector._handle_depth` for a message whose raw symbol
resolves to the configured symbol `sym`.  `snap` is the snapshot a
resync would download.  Returns the new connector state, the emitted
event (if any), and the number of resyncs performed. -/
def handleDepth (st : ConnState) (sym : String) (msg : DepthMsg)
    (snap : Snapshot) (depthLevels : ℕ) : ConnState × Option DepthEvent × ℕ :=
  let curLast := st.lastId sym
  if msg.u ≤ curLast then
    (st, none, 0)
  else if ¬ (msg.U ≤ curLast + 1 ∧ curLast + 1 ≤ msg.u) then
    (resyncSymbol st sym snap, none, 1)
  else
    let st1 := applyDelta st sym msg
    let st2 : ConnState := ⟨st1.bids, st1.asks,
      fun s => if s = sym then msg.u else st1.lastId s⟩
    match top_of_book true (st2.bids sym), top_of_book false (st2.asks sym) with
    | some bb, some ba =>
      (st2,
       some ⟨sym, msg.E, bb, ba, (bb.1 + ba.1) / 2,
         if depthLevels ≠ 0 then
           some (((st2.bids sym).mergeSort (fun x y => decide (y.1 ≤ x.1))).take depthLevels)
         else none,
         if depthLevels ≠ 0 then
           some (((st2.asks sym).mergeSort (fun x y => decide (x.1 ≤ y.1))).take depthLevels)
         else none⟩,
       0)
    | _, _ => (st2, none, 0)

/-! ## Delta sequences and the cumulative diff (for the algebraic
property of §8: a contiguous delta sequence equals one cumulative diff) -/

/-- Guard-passing contiguity for a delta sequence starting at sequence
cursor `cur`: each delta satisfies `cur < u` and `U ≤ cur + 1` (so
`_handle_depth` neither discards nor resyncs) and advances the cursor to
its `u`. -/
def contig (cur : ℤ) : List DepthMsg → Bool
  | [] => true
  | m :: rest => (decide (cur < m.u) && decide (m.U ≤ cur + 1)) && contig m.u rest

/-- Feed a sequence of depth messages through `_handle_depth`, keeping
the connector state. -/
def handleSeq (st : ConnState) (sym : String) (msgs : List DepthMsg)
    (snap : Snapshot) (depthLevels : ℕ) : ConnState :=
  msgs.foldl (fun s m => (handleDepth s sym m snap depthLevels).1) st

/-- The sequence cursor after a delta sequence. -/
def lastIdAfter (cur : ℤ) : List DepthMsg → ℤ
  | [] => cur
  | m :: rest => lastIdAfter m.u rest

/-- The last-written quantity for price `p` over a list of delta pairs
(later entries win). -/
def lastWrite : List (ℚ × ℚ) → ℚ → Option ℚ
  | [], _ => none
  | e :: rest, p =>
    match lastWrite rest p with
    | some q => some q
    | none => if e.1 = p then some e.2 else none

/-- Fold building the cumulative diff: keep, for each touched price,
only its last written quantity (ordered by last occurrence). -/
def cumFold (acc : List (ℚ × ℚ)) (es : List (ℚ × ℚ)) : List (ℚ × ℚ) :=
  es.foldl (fun acc2 e => acc2.filter (fun y => !(y.1 == e.1)) ++ [e]) acc

/-- The single cumulative diff of a sequence of delta pairs. -/
def cumDiff (es : List (ℚ × ℚ)) : List (ℚ × ℚ) := cumFold [] es

/-- All bid-side pairs of a delta sequence, in arrival order. -/
def allBidPairs (msgs : List DepthMsg) : List (ℚ × ℚ) := (msgs.map DepthMsg.b).flatten

/-- All ask-side pairs of a delta sequence, in arrival order. -/
def allAskPairs (msgs : List DepthMsg) : List (ℚ × ℚ) := (msgs.map DepthMsg.a).flatten

/-- The effect a last-written quantity has on a looked-up level:
`0` removes it, a positive one overwrites it, an untouched price keeps
the old entry. -/
def applyLast (w : Option ℚ) (old : Option ℚ) : Option ℚ :=
  match w with
  | some q => if q = 0 then none else some q
  | none => old

/-! ## supervisor/alerts/engine.py — price-move alert engine -/

/-- The CPython `bisect.bisect_right` loop on `lo`/`hi` bounds, with
explicit fuel; the interval shrinks at every iteration, so
`length + 1` units of fuel always suffice. -/
def bisectGo (a : List ℤ) (x : ℤ) : ℕ → ℕ → ℕ → ℕ
  | 0, lo, _ => lo
  | fuel + 1, lo, hi =>
    if lo < hi then
      let mid := (lo + hi) / 2
      if x < a.getD mid 0 then bisectGo a x fuel lo mid
      else bisectGo a x fuel (mid + 1) hi
    else lo

/-- `bisect.bisect_right(a, x)`. -/
def bisectRight (a : List ℤ) (x : ℤ) : ℕ := bisectGo a x (a.length + 1) 0 a.length

/-- `AlertEngine._price_at_or_before`: the price of the latest sample
with timestamp `≤ cutoff`; `None` when the deque is empty or the front
sample is already past the cutoff. -/
def price_at_or_before (dq : List Sample) (cutoff : ℤ) : Option ℚ :=
  match dq with
  | [] => none
  | s0 :: _ =>
    if cutoff < s0.1 then none
    else
      let idx : ℤ := (bisectRight (dq.map Prod.fst) cutoff : ℤ) - 1
      if 0 ≤ idx then some ((dq.getD idx.toNat (0, 0)).2) else none

/-- `now = ts or int(time.time() * 1000)`: Python `or` falls back to the
wall clock when `ts` is `None` **or zero** (both are falsy). -/
def nowOf (ts : Option ℤ) (wall : ℤ) : ℤ :=
  match ts with
  | none => wall
  | some t => if t = 0 then wall else t

/-- The threshold configuration of `AlertEngine.__init__`. -/
structure AECfg where
  pct24 : ℚ
  w24 : ℤ
  pctShort : ℚ
  wShort : ℤ
  cooldown : ℤ

/-- The engine's mutable state: `self.history` keyed by
`(exchange, symbol)` and `self.last_alert` keyed by
`(exchange, symbol, tag)`; `last_alert.get(tag, 0)` makes an untouched
tag read as `0`. -/
structure AEState where
  history : String × String → List Sample
  lastAlert : String × String × String → ℤ

/-- Python `abs` on a float value. -/
def pyAbs (q : ℚ) : ℚ := if q < 0 then -q else q

/-- One alert dict produced by `AlertEngine.check`: the window tag, the
symbol, and the percentage move / reference price / current price its
subject and message interpolate. -/
structure AEAlert where
  tag : String
  symbol : String
  pct : ℚ
  ref : ℚ
  price : ℚ
deriving DecidableEq

/-- One threshold block of `AlertEngine.check` (the 24 h block and the
short block are identical up to tag, threshold and window).  Python's
`if ref_price:` is float truthiness — false for `None` and for `0.0` —
and only inside it is `(price - ref) / ref` evaluated.  The cooldown
gate is `now - last_alert.get(tag, 0) >= cooldown`.  Returns the updated
`last_alert` map and the alerts appended by this block. -/
def windowStep (exch sym tagName : String) (pctTh : ℚ) (windowMs cooldown : ℤ)
    (dq : List Sample) (now : ℤ) (price : ℚ)
    (la : String × String × String → ℤ) :
    (String × String × String → ℤ) × List AEAlert :=
  match price_at_or_before dq (now - windowMs) with
  | some r =>
    if r ≠ 0 then
      if pyAbs ((price - r) / r) ≥ pctTh ∧ now - la (exch, sym, tagName) ≥ cooldown then
        (fun t => if t = (exch, sym, tagName) then now else la t,
         [⟨tagName, sym, (price - r) / r, r, price⟩])
      else (la, [])
    else (la, [])
  | none => (la, [])

/-- The deque of `AlertEngine.check` after appending the new tick and
pruning everything older than the bigger window. -/
def prunedHistory (cfg : AECfg) (st : AEState) (exch sym : String)
    (price : ℚ) (now : ℤ) : List Sample :=
  ((st.history (exch, sym)) ++ [(now, price)]).dropWhile
    (fun s => s.1 < now - max cfg.w24 cfg.wShort)

/-- `AlertEngine.check(exchange, symbol, price, ts)`: append the tick to
the key's history, prune to the larger window, evaluate the 24 h block
and then the short block, and return the new state with the produced
alerts.  `wall` models `int(time.time() * 1000)`. -/
def AlertEngine.check (cfg : AECfg) (st : AEState) (exch sym : String)
    (price : ℚ) (ts : Option ℤ) (wall : ℤ) : AEState × List AEAlert :=
  let now := nowOf ts wall
  let dq := prunedHistory cfg st exch sym price now
  let s24 := windowStep exch sym "24h" cfg.pct24 cfg.w24 cfg.cooldown dq now price st.lastAlert
  let sSh := windowStep exch sym "short" cfg.pctShort cfg.wShort cfg.cooldown dq now price s24.1
  (⟨fun k => if k = (exch, sym) then dq else st.history k, sSh.1⟩, s24.2 ++ sSh.2)

/-! ## supervisor/processors/handler.py — TickHandler.handle_tick -/

/-- A Python value found in an event-dict field, as the dispatcher's
conversions see it. -/
inductive PyVal where
  | num (q : ℚ)
  | nonNum
deriving DecidableEq

/-- `float(x)` as applied to the `price` field: numeric values convert,
`None` or junk raises `TypeError`/`ValueError`. -/
def pyFloat : PyVal → Except String ℚ
  | .num q => .ok q
  | .nonNum => .error "TypeError/ValueError in float()"

/-- `int(x)` as applied to the `timestamp` field (Python truncates a
float toward zero). -/
def pyInt : PyVal → Except String ℤ
  | .num q => .ok (q.num / (q.den : ℤ))
  | .nonNum => .error "TypeError/ValueError in int()"

/-- The event dict as `handle_tick` reads it; `none` marks an absent key
(`data[k]` raises `KeyError`, `data.get(k, d)` yields the default). -/
structure EventDict where
  event : Option String
  exchange : Option String
  symbol : Option String
  timestamp : Option PyVal
  price : Option PyVal

/-- One alert dict as the dispatcher sees it: `{subject, message}`. -/
abbrev PyAlert := String × String

/-- Outcomes of the awaited collaborators during one `handle_tick`
call: `none` means the call returns normally, `some e` that it raises
`e`; `alert_engine.check` either raises or returns its alert list. -/
structure SubOutcomes where
  fileSinkAdd : Option String
  flowAdd : Option String
  spreadAdd : Option String
  qiAdd : Option String
  storeUpdate : Option String
  alertCheck : Except String (List PyAlert)

/-- The calls one `handle_tick` invocation performed: which
sub-components saw the event, the arguments the store and the alert
engine were invoked with, and how many alerts entered the retry
dispatcher. -/
structure Effects where
  fileSinkCalled : Bool
  flowAddCalled : Bool
  spreadAddCalled : Bool
  qiAddCalled : Bool
  storeUpdated : Option (String × String × ℚ × ℤ)
  alertCheckArgs : Option (String × String × ℚ × ℤ)
  dispatched : ℕ
deriving DecidableEq

/-- The body of `TickHandler.handle_tick` — the code inside the `try:`
block, line by line: write to the file sink; `trade` → flow monitor and
return; `depth` → spread monitor, then queue monitor, and return;
otherwise the ticker path: read `exchange`/`symbol` (`KeyError` when
absent), convert the timestamp, convert the price under the inner
`except (TypeError, ValueError): return` (a silent drop, not a fault),
update the store, run `alert_engine.check`, and dispatch each returned
alert.  Returns the effects performed and the exception escaping the
body, if any. -/
def handleTickBody (d : EventDict) (orc : SubOutcomes) : Effects × Option String :=
  match orc.fileSinkAdd with
  | some e => (⟨true, false, false, false, none, none, 0⟩, some e)
  | none =>
    if d.event.getD "ticker" = "trade" then
      (⟨true, true, false, false, none, none, 0⟩, orc.flowAdd)
    else if d.event.getD "ticker" = "depth" then
      match orc.spreadAdd with
      | some e => (⟨true, false, true, false, none, none, 0⟩, some e)
      | none => (⟨true, false, true, true, none, none, 0⟩, orc.qiAdd)
    else
      match d.exchange with
      | none => (⟨true, false, false, false, none, none, 0⟩, some "KeyError: exchange")
      | some exch =>
        match d.symbol with
        | none => (⟨true, false, false, false, none, none, 0⟩, some "KeyError: symbol")
        | some sym =>
          match (match d.timestamp with | none => Except.ok 0 | some v => pyInt v) with
          | .error e => (⟨true, false, false, false, none, none, 0⟩, some e)
          | .ok ts =>
            match d.price with
            | none => (⟨true, false, false, false, none, none, 0⟩, some "KeyError: price")
            | some pv =>
              match pyFloat pv with
              | .error _ => (⟨true, false, false, false, none, none, 0⟩, none)
              | .ok price =>
                match orc.storeUpdate with
                | some e =>
                  (⟨true, false, false, false, some (exch, sym, price, ts), none, 0⟩, some e)
                | none =>
                  match orc.alertCheck with
                  | .error e =>
                    (⟨true, false, false, false, some (exch, sym, price, ts),
                      some (exch, sym, price, ts), 0⟩, some e)
                  | .ok alerts =>
                    (⟨true, false, false, false, some (exch, sym, price, ts),
                      some (exch, sym, price, ts), alerts.length⟩, none)

/-- `TickHandler.handle_tick`: the body runs inside
`try: … except Exception as exc: logger.exception(…)`.  Result:
`(effects, caught, raised)` — `caught` is the exception the `except`
block caught and logged (the event is dropped there), `raised` the
exception propagated to the caller. -/
def handle_tick (d : EventDict) (orc : SubOutcomes) :
    Effects × Option String × Option String :=
  match handleTickBody d orc with
  | (eff, none) => (eff, none, none)
  | (eff, some e) => (eff, some e, none)

/-! # Theorems -/

/-! ## Alert-engine lemmas -/

/-- Complete case analysis of one threshold block: either it fires —
the reference exists, is nonzero, the move reaches the threshold and the
cooldown gate passes — emitting exactly one alert and stamping the tag,
or it emits nothing and leaves `last_alert` untouched. -/
theorem windowStep_cases (exch sym tagName : String) (pctTh : ℚ)
    (windowMs cooldown : ℤ) (dq : List Sample) (now : ℤ) (price : ℚ)
    (la : String × String × String → ℤ) :
    ((windowStep exch sym tagName pctTh windowMs cooldown dq now price la).2 = [] ∧
      (windowStep exch sym tagName pctTh windowMs cooldown dq now price la).1 = la) ∨
    (∃ r : ℚ, price_at_or_before dq (now - windowMs) = some r ∧ r ≠ 0 ∧
      pyAbs ((price - r) / r) ≥ pctTh ∧ cooldown ≤ now - la (exch, sym, tagName) ∧
      (windowStep exch sym tagName pctTh windowMs cooldown dq now price la).2
        = [⟨tagName, sym, (price - r) / r, r, price⟩] ∧
      (windowStep exch sym tagName pctTh windowMs cooldown dq now price la).1
        = fun t => if t = (exch, sym, tagName) then now else la t) := by
  unfold windowStep
  split
  next r heq =>
    by_cases hr : r ≠ 0
    · rw [if_pos hr]
      by_cases hg : pyAbs ((price - r) / r) ≥ pctTh ∧ now - la (exch, sym, tagName) ≥ cooldown
      · rw [if_pos hg]
        exact Or.inr ⟨r, heq, hr, hg.1, hg.2, rfl, rfl⟩
      · rw [if_neg hg]
        exact Or.inl ⟨rfl, rfl⟩
    · rw [if_neg hr]
      exact Or.inl ⟨rfl, rfl⟩
  next heq => exact Or.inl ⟨rfl, rfl⟩

/-- Whatever a threshold block does, the `last_alert` entries of other
tags are untouched. -/
theorem windowStep_preserves_other (exch sym tagName : String) (pctTh : ℚ)
    (windowMs cooldown : ℤ) (dq : List Sample) (now : ℤ) (price : ℚ)
    (la : String × String × String → ℤ) (t : String × String × String)
    (ht : t ≠ (exch, sym, tagName)) :
    (windowStep exch sym tagName pctTh windowMs cooldown dq now price la).1 t = la t := by
  rcases windowStep_cases exch sym tagName pctTh windowMs cooldown dq now price la with
    ⟨_, h1⟩ | ⟨r, _, _, _, _, _, h1⟩ <;> rw [h1]
  simp [ht]

/-- `AlertEngine.check`, with its intermediate values spelled out. -/
theorem check_eq (cfg : AECfg) (st : AEState) (exch sym : String)
    (price : ℚ) (ts : Option ℤ) (wall : ℤ) :
    AlertEngine.check cfg st exch sym price ts wall =
      (⟨fun k => if k = (exch, sym)
            then prunedHistory cfg st exch sym price (nowOf ts wall) else st.history k,
        (windowStep exch sym "short" cfg.pctShort cfg.wShort cfg.cooldown
          (prunedHistory cfg st exch sym price (nowOf ts wall)) (nowOf ts wall) price
          (windowStep exch sym "24h" cfg.pct24 cfg.w24 cfg.cooldown
            (prunedHistory cfg st exch sym price (nowOf ts wall)) (nowOf ts wall) price
            st.lastAlert).1).1⟩,
       (windowStep exch sym "24h" cfg.pct24 cfg.w24 cfg.cooldown
          (prunedHistory cfg st exch sym price (nowOf ts wall)) (nowOf ts wall) price
          st.lastAlert).2 ++
       (windowStep exch sym "short" cfg.pctShort cfg.wShort cfg.cooldown
          (prunedHistory cfg st exch sym price (nowOf ts wall)) (nowOf ts wall) price
          (windowStep exch sym "24h" cfg.pct24 cfg.w24 cfg.cooldown
            (prunedHistory cfg st exch sym price (nowOf ts wall)) (nowOf ts wall) price
            st.lastAlert).1).2) := rfl

/-- Any alert emitted by `check` carries tag `"24h"` or `"short"`, a
nonzero reference price, passes the cooldown gate against the engine
state at call time, and stamps its tag with `now`. -/
theorem check_mem (cfg : AECfg) (st : AEState) (exch sym : String) (price : ℚ)
    (ts : Option ℤ) (wall : ℤ) (a : AEAlert)
    (ha : a ∈ (AlertEngine.check cfg st exch sym price ts wall).2) :
    (a.tag = "24h" ∨ a.tag = "short") ∧ a.ref ≠ 0 ∧
      cfg.cooldown ≤ nowOf ts wall - st.lastAlert (exch, sym, a.tag) ∧
      (AlertEngine.check cfg st exch sym price ts wall).1.lastAlert (exch, sym, a.tag)
        = nowOf ts wall := by
  have hne24 : ((exch, sym, "24h") : String × String × String) ≠ (exch, sym, "short") := by
    simp
  have hneSh : ((exch, sym, "short") : String × String × String) ≠ (exch, sym, "24h") := by
    simp
  rw [check_eq] at ha
  rcases List.mem_append.mp ha with h | h
  · rcases windowStep_cases exch sym "24h" cfg.pct24 cfg.w24 cfg.cooldown
        (prunedHistory cfg st exch sym price (nowOf ts wall)) (nowOf ts wall) price
        st.lastAlert with ⟨h24e, _⟩ | ⟨r24, _, hr24, _, hg24, h24e, h24la⟩
    · rw [h24e] at h
      exact absurd h (List.not_mem_nil a)
    · rw [h24e, List.mem_singleton] at h
      subst h
      refine ⟨Or.inl rfl, hr24, hg24, ?_⟩
      show (windowStep exch sym "short" cfg.pctShort cfg.wShort cfg.cooldown
          (prunedHistory cfg st exch sym price (nowOf ts wall)) (nowOf ts wall) price
          (windowStep exch sym "24h" cfg.pct24 cfg.w24 cfg.cooldown
            (prunedHistory cfg st exch sym price (nowOf ts wall)) (nowOf ts wall) price
            st.lastAlert).1).1 (exch, sym, "24h") = nowOf ts wall
      rw [windowStep_preserves_other exch sym "short" cfg.pctShort cfg.wShort cfg.cooldown
        (prunedHistory cfg st exch sym price (nowOf ts wall)) (nowOf ts wall) price
        _ _ hne24]
      rw [h24la]
      simp
  · rcases windowStep_cases exch sym "short" cfg.pctShort cfg.wShort cfg.cooldown
        (prunedHistory cfg st exch sym price (nowOf ts wall)) (nowOf ts wall) price
        (windowStep exch sym "24h" cfg.pct24 cfg.w24 cfg.cooldown
          (prunedHistory cfg st exch sym price (nowOf ts wall)) (nowOf ts wall) price
          st.lastAlert).1 with ⟨hShe, _⟩ | ⟨rSh, _, hrSh, _, hgSh, hShe, hShla⟩
    · rw [hShe] at h
      exact absurd h (List.not_mem_nil a)
    · rw [hShe, List.mem_singleton] at h
      subst h
      refine ⟨Or.inr rfl, hrSh, ?_, ?_⟩
      · rw [windowStep_preserves_other exch sym "24h" cfg.pct24 cfg.w24 cfg.cooldown
          (prunedHistory cfg st exch sym price (nowOf ts wall)) (nowOf ts wall) price
          _ _ hneSh] at hgSh
        exact hgSh
      · show (windowStep exch sym "short" cfg.pctShort cfg.wShort cfg.cooldown
            (prunedHistory cfg st exch sym price (nowOf ts wall)) (nowOf ts wall) price
            (windowStep exch sym "24h" cfg.pct24 cfg.w24 cfg.cooldown
              (prunedHistory cfg st exch sym price (nowOf ts wall)) (nowOf ts wall) price
              st.lastAlert).1).1 (exch, sym, "short") = nowOf ts wall
        rw [hShla]
        simp

/-- A single `check` call emits at most one alert per tag: the list of
its alerts sharing the tag of any emitted alert has length exactly 1. -/
theorem check_filter_count (cfg : AECfg) (st : AEState) (exch sym : String)
    (price : ℚ) (ts : Option ℤ) (wall : ℤ) (a : AEAlert)
    (ha : a ∈ (AlertEngine.check cfg st exch sym price ts wall).2) :
    ((AlertEngine.check cfg st exch sym price ts wall).2.filter
      (fun x => x.tag == a.tag)).length = 1 := by
  rw [check_eq] at ha ⊢
  rcases windowStep_cases exch sym "24h" cfg.pct24 cfg.w24 cfg.cooldown
      (prunedHistory cfg st exch sym price (nowOf ts wall)) (nowOf ts wall) price
      st.lastAlert with ⟨h24e, _⟩ | ⟨r24, _, _, _, _, h24e, _⟩ <;>
    rcases windowStep_cases exch sym "short" cfg.pctShort cfg.wShort cfg.cooldown
        (prunedHistory cfg st exch sym price (nowOf ts wall)) (nowOf ts wall) price
        (windowStep exch sym "24h" cfg.pct24 cfg.w24 cfg.cooldown
          (prunedHistory cfg st exch sym price (nowOf ts wall)) (nowOf ts wall) price
          st.lastAlert).1 with ⟨hShe, _⟩ | ⟨rSh, _, _, _, _, hShe, _⟩ <;>
    rw [h24e, hShe] at ha ⊢ <;>
    simp only [List.nil_append, List.append_nil, List.not_mem_nil, List.mem_append,
      List.mem_singleton, false_or, or_false] at ha
  all_goals try subst ha
  all_goals try rcases ha with rfl | rfl
  all_goals simp

/-! ## Dictionary lookup lemmas for the order book -/

theorem lookup_dictInsert (b : Book) (p v x : ℚ) :
    dictLookup (dictInsert b p v) x = if p = x then some v else dictLookup b x := by
  induction b with
  | nil => simp [dictInsert, dictLookup]
  | cons e rest ih =>
    by_cases hpx : p = x
    · subst hpx
      by_cases hep : e.1 = p <;> simp [dictInsert, dictLookup, hep, ih]
    · have hxp : ¬ x = p := fun h => hpx h.symm
      by_cases hep : e.1 = p
      · have hex : ¬ e.1 = x := fun h => hpx (hep.symm.trans h)
        simp [dictInsert, dictLookup, hep, hex, hpx, hxp]
      · by_cases hex : e.1 = x <;>
          simp [dictInsert, dictLookup, hep, hex, hpx, hxp, ih]

theorem lookup_dictPop (b : Book) (p x : ℚ) :
    dictLookup (dictPop b p) x = if p = x then none else dictLookup b x := by
  induction b with
  | nil => simp [dictPop, dictLookup]
  | cons e rest ih =>
    by_cases hpx : p = x
    · subst hpx
      by_cases hep : e.1 = p <;>
        simp [dictPop, List.filter_cons, dictLookup, hep, ih] at ih ⊢ <;> simp [ih]
    · have hxp : ¬ x = p := fun h => hpx h.symm
      have ih2 : dictLookup (rest.filter fun y => !(y.1 == p)) x = dictLookup rest x := by
        have hpop : dictLookup (dictPop rest p) x = dictLookup rest x := by
          simp [ih, hpx]
        simpa [dictPop] using hpop
      by_cases hep : e.1 = p
      · have hex : ¬ e.1 = x := fun h => hpx (hep.symm.trans h)
        simp [dictPop, List.filter_cons, dictLookup, hep, hex, hpx, hxp, ih2]
      · by_cases hex : e.1 = x <;>
          simp [dictPop, List.filter_cons, dictLookup, hep, hex, hpx, hxp, ih2]

theorem lookup_applyLevel (b : Book) (e : ℚ × ℚ) (x : ℚ) :
    dictLookup (applyLevel b e) x =
      if e.1 = x then (if e.2 = 0 then none else some e.2) else dictLookup b x := by
  by_cases he : e.2 = 0 <;>
    simp [applyLevel, he, lookup_dictPop, lookup_dictInsert]

theorem lookup_applyEntries (es : List (ℚ × ℚ)) (b : Book) (x : ℚ) :
    dictLookup (applyEntries b es) x = applyLast (lastWrite es x) (dictLookup b x) := by
  induction es generalizing b with
  | nil => simp [applyEntries, lastWrite, applyLast]
  | cons e rest ih =>
    have hstep : applyEntries b (e :: rest) = applyEntries (applyLevel b e) rest := rfl
    rw [hstep, ih, lookup_applyLevel]
    rcases hlw : lastWrite rest x with _ | q
    · by_cases hex : e.1 = x <;> simp [lastWrite, hlw, applyLast, hex]
    · simp [lastWrite, hlw, applyLast]

theorem lastWrite_append_single (l : List (ℚ × ℚ)) (e : ℚ × ℚ) (x : ℚ) :
    lastWrite (l ++ [e]) x = if e.1 = x then some e.2 else lastWrite l x := by
  induction l with
  | nil => simp [lastWrite]
  | cons a rest ih => by_cases hex : e.1 = x <;> simp [lastWrite, ih, hex]

theorem lastWrite_filter_ne (l : List (ℚ × ℚ)) (p x : ℚ) :
    lastWrite (l.filter (fun y => !(y.1 == p))) x =
      if p = x then none else lastWrite l x := by
  induction l with
  | nil => simp [lastWrite]
  | cons a rest ih =>
    by_cases hpx : p = x
    · subst hpx
      have ih2 : lastWrite (rest.filter fun y => !(y.1 == p)) p = none := by
        simpa using ih
      by_cases hap : a.1 = p <;>
        simp [List.filter_cons, lastWrite, hap, ih2]
    · have ih2 : lastWrite (rest.filter fun y => !(y.1 == p)) x = lastWrite rest x := by
        simpa [hpx] using ih
      by_cases hap : a.1 = p
      · have hax : ¬ a.1 = x := fun h => hpx (hap.symm.trans h)
        rcases hlw : lastWrite rest x with _ | q <;>
          simp [List.filter_cons, lastWrite, hap, hax, hpx, ih2, hlw]
      · rcases hlw : lastWrite rest x with _ | q <;>
          simp [List.filter_cons, lastWrite, hap, hpx, ih2, hlw]

theorem lastWrite_cumFold (es : List (ℚ × ℚ)) (acc : List (ℚ × ℚ)) (x : ℚ) :
    lastWrite (cumFold acc es) x = (lastWrite es x).or (lastWrite acc x) := by
  induction es generalizing acc with
  | nil => simp [cumFold, lastWrite]
  | cons e rest ih =>
    have hstep : cumFold acc (e :: rest) =
        cumFold (acc.filter (fun y => !(y.1 == e.1)) ++ [e]) rest := rfl
    rw [hstep, ih, lastWrite_append_single, lastWrite_filter_ne]
    rcases hlw : lastWrite rest x with _ | q
    · by_cases hex : e.1 = x <;> simp [lastWrite, hlw, hex]
    · simp [lastWrite, hlw]

theorem lastWrite_cumDiff (es : List (ℚ × ℚ)) (x : ℚ) :
    lastWrite (cumDiff es) x = lastWrite es x := by
  rw [cumDiff, lastWrite_cumFold]
  simp [lastWrite]

/-- Characterization of `_handle_depth` on an accepted (contiguous)
delta: the delta is applied to both sides and the cursor advances. -/
theorem handleDepth_accept (st : ConnState) (sym : String) (msg : DepthMsg)
    (snap : Snapshot) (depthLevels : ℕ)
    (h1 : st.lastId sym < msg.u) (h2 : msg.U ≤ st.lastId sym + 1) :
    (handleDepth st sym msg snap depthLevels).1 =
      ⟨fun s => if s = sym then applyEntries (st.bids sym) msg.b else st.bids s,
       fun s => if s = sym then applyEntries (st.asks sym) msg.a else st.asks s,
       fun s => if s = sym then msg.u else st.lastId s⟩ := by
  have hnot : ¬ msg.u ≤ st.lastId sym := not_le.mpr h1
  have hok : ¬ ¬ (msg.U ≤ st.lastId sym + 1 ∧ st.lastId sym + 1 ≤ msg.u) :=
    not_not_intro ⟨h2, by omega⟩
  simp only [handleDepth, if_neg hnot, if_neg hok, applyDelta, eq_self_iff_true, if_true]
  rcases top_of_book true (applyEntries (st.bids sym) msg.b) with _ | bb <;>
    rcases top_of_book false (applyEntries (st.asks sym) msg.a) with _ | ba <;> rfl

/-- Under contiguity, feeding the sequence through `_handle_depth`
applies all pairs in order and advances the cursor to the last `u`. -/
theorem handleSeq_books (msgs : List DepthMsg) (st : ConnState) (sym : String)
    (snap : Snapshot) (depthLevels : ℕ) (hc : contig (st.lastId sym) msgs = true) :
    (handleSeq st sym msgs snap depthLevels).bids sym
        = applyEntries (st.bids sym) (allBidPairs msgs) ∧
    (handleSeq st sym msgs snap depthLevels).asks sym
        = applyEntries (st.asks sym) (allAskPairs msgs) ∧
    (handleSeq st sym msgs snap depthLevels).lastId sym
        = lastIdAfter (st.lastId sym) msgs := by
  induction msgs generalizing st with
  | nil => simp [handleSeq, allBidPairs, allAskPairs, lastIdAfter, applyEntries]
  | cons m rest ih =>
    simp only [contig, Bool.and_eq_true, decide_eq_true_eq] at hc
    obtain ⟨⟨h1, h2⟩, hrest⟩ := hc
    have hstep : handleSeq st sym (m :: rest) snap depthLevels =
        handleSeq (handleDepth st sym m snap depthLevels).1 sym rest snap depthLevels := rfl
    rw [hstep, handleDepth_accept st sym m snap depthLevels h1 h2]
    have hlast : ((⟨fun s => if s = sym then applyEntries (st.bids sym) m.b else st.bids s,
        fun s => if s = sym then applyEntries (st.asks sym) m.a else st.asks s,
        fun s => if s = sym then m.u else st.lastId s⟩ : ConnState)).lastId sym = m.u := by
      simp
    obtain ⟨ihb, iha, ihl⟩ := ih _ (by rw [hlast]; exact hrest)
    refine ⟨?_, ?_, ?_⟩
    · rw [ihb]
      simp [allBidPairs, applyEntries, List.foldl_append]
    · rw [iha]
      simp [allAskPairs, applyEntries, List.foldl_append]
    · rw [ihl]
      simp [lastIdAfter]

/-- **C1** For every alert produced during a handle call, delivery is
attempted and, if an attempt succeeds, no further attempts for that alert
are made; on failure it is retried at most MAX_RETRIES additional times,
and after exhaustion it is abandoned with a log message.  The code does
not do this: `AlertEngine.send` never returns the e-mail result, so the
`if … : return` in `_dispatch_with_retry` can never fire.  For every
pattern of e-mail outcomes — including all attempts succeeding — exactly
`1 + MAX_RETRIES = 3` delivery attempts are made and the alert is then
logged as abandoned. -/
theorem C1_delivery_always_abandoned :
    (∀ emailOutcomes : ℕ → Bool, dispatchWithRetry emailOutcomes = (3, true)) ∧
      dispatchWithRetry (fun _ => true) = (3, true) := by
  refine ⟨fun emailOutcomes => rfl, rfl⟩

/-- **C6 counterexample** The claim that after `push(key, ts, v)` every
remaining sample satisfies `ts_i > ts − window` is false on the code in
two ways.  With `window_ms = 5`: (a) pushing at `ts = 0` and then at
`ts = 5` keeps the sample with timestamp `0`, which does not satisfy
`0 > 5 − 5`; (b) pushes with out-of-order timestamps (`100`, then `0`,
then `100`) leave the stale sample `(0, 2)` in the middle of the buffer,
far older than `100 − 5`. -/
theorem C6_counterexample :
    (((0 : ℤ), (1 : ℚ)) ∈
        ((RollingWindowMixin.push 5
          (RollingWindowMixin.push 5 ⟨fun _ => []⟩ "k" 0 1).1 "k" 5 2).1).hist "k" ∧
      ¬ ((0 : ℤ) > 5 - 5)) ∧
    (((0 : ℤ), (2 : ℚ)) ∈
        ((RollingWindowMixin.push 5
          (RollingWindowMixin.push 5
            (RollingWindowMixin.push 5 ⟨fun _ => []⟩ "k" 100 1).1 "k" 0 2).1
          "k" 100 3).1).hist "k" ∧
      ¬ ((0 : ℤ) > 100 - 5)) := by
  refine ⟨⟨?_, by decide⟩, ⟨?_, by decide⟩⟩ <;> decide

/-- On a sorted buffer with an appended fresh sample, the front
eviction loop leaves only samples at or after the cutoff. -/
theorem dropWhile_sorted_bound (c : ℤ) (x : Sample) (hx : c ≤ x.1) :
    ∀ l : List Sample, l.Pairwise (fun a b => a.1 ≤ b.1) →
      ∀ s ∈ (l ++ [x]).dropWhile (fun y => y.1 < c), c ≤ s.1 := by
  intro l
  induction l with
  | nil =>
    intro _ s hs
    by_cases h : x.1 < c
    · simp [List.dropWhile, h] at hs
    · simp [List.dropWhile, h] at hs
      subst hs
      exact hx
  | cons a t ih =>
    intro hp s hs
    rw [List.cons_append, List.dropWhile_cons] at hs
    by_cases ha : a.1 < c
    · rw [if_pos (by simpa using ha)] at hs
      exact ih (List.Pairwise.of_cons hp) s hs
    · rw [if_neg (by simpa using ha)] at hs
      rcases List.mem_cons.mp hs with rfl | hs2
      · omega
      · rcases List.mem_append.mp hs2 with hmem | hmem
        · have hle := (List.pairwise_cons.mp hp).1 s hmem
          omega
        · have hsx : s = x := by simpa using hmem
          subst hsx
          exact hx

/-- **C6** (amended) If the key's buffer holds its samples in
nondecreasing timestamp order — as is the case when pushes arrive in
timestamp order — and the window is nonnegative, then after
`push(key, ts, v)` every remaining sample satisfies
`ts_i ≥ ts − window`: the bound is inclusive, not strict, because the
eviction loop uses `dq[0][0] < ts − window`, and out-of-order input can
defeat even the inclusive bound (see the counterexample). -/
theorem C6_push_keeps_only_recent (windowMs : ℤ) (st : RWState) (sym : String)
    (ts : ℤ) (val : ℚ) (hw : 0 ≤ windowMs)
    (hs : (st.hist sym).Pairwise (fun a b => a.1 ≤ b.1)) :
    ∀ s ∈ ((RollingWindowMixin.push windowMs st sym ts val).1).hist sym,
      ts - windowMs ≤ s.1 := by
  intro s hmem
  have hx : ts - windowMs ≤ ((ts, val) : Sample).1 := by
    simp only
    omega
  have h2 : ((RollingWindowMixin.push windowMs st sym ts val).1).hist sym
      = (st.hist sym ++ [(ts, val)]).dropWhile (fun y => y.1 < ts - windowMs) := by
    simp [RollingWindowMixin.push]
  rw [h2] at hmem
  exact dropWhile_sorted_bound (ts - windowMs) (ts, val) hx (st.hist sym) hs s hmem

/-- Witness for C6 (amended): pushing `(5, 2)` with window `5` onto the
sorted buffer `[(1, 1)]` keeps both samples, and the kept old sample
satisfies the inclusive bound `5 − 5 ≤ 1`. -/
theorem C6_push_keeps_only_recent_witness :
    (0 : ℤ) ≤ 5 ∧
    ((RollingWindowMixin.push 5 ⟨fun k => if k = "k" then [(1, 1)] else []⟩ "k" 5 2).1).hist "k"
      = [(1, 1), (5, 2)] ∧
    (5 : ℤ) - 5 ≤ (((1 : ℤ), (1 : ℚ)) : Sample).1 :=
  ⟨by decide, by decide,
   C6_push_keeps_only_recent 5 ⟨fun k => if k = "k" then [(1, 1)] else []⟩ "k" 5 2
     (by decide) (by decide) (1, 1) (by decide)⟩

/-- **C9** For every initial book and every sequence of well-formed
depth deltas with contiguous update-id ranges, applying the deltas one
by one through `_handle_depth` (qty 0 removes a level, other quantities
upsert it, `last_update_id` advances to each delta's `last_id`) yields
the same bid/ask maps — pointwise, as price → quantity dictionaries — as
applying the single cumulative diff (per-price last-written quantity
over the whole sequence) to the initial book, and the final
`last_update_id` is the last delta's `last_id`. -/
theorem C9_sequence_equals_cumulative_diff (st : ConnState) (sym : String)
    (msgs : List DepthMsg) (snap : Snapshot) (depthLevels : ℕ)
    (hc : contig (st.lastId sym) msgs = true) :
    (∀ p, dictLookup ((handleSeq st sym msgs snap depthLevels).bids sym) p
        = dictLookup (applyEntries (st.bids sym) (cumDiff (allBidPairs msgs))) p) ∧
    (∀ p, dictLookup ((handleSeq st sym msgs snap depthLevels).asks sym) p
        = dictLookup (applyEntries (st.asks sym) (cumDiff (allAskPairs msgs))) p) ∧
    (handleSeq st sym msgs snap depthLevels).lastId sym
        = lastIdAfter (st.lastId sym) msgs := by
  obtain ⟨hb, ha, hl⟩ := handleSeq_books msgs st sym snap depthLevels hc
  refine ⟨fun p => ?_, fun p => ?_, hl⟩
  · rw [hb, lookup_applyEntries, lookup_applyEntries, lastWrite_cumDiff]
  · rw [ha, lookup_applyEntries, lookup_applyEntries, lastWrite_cumDiff]

/-- Witness for C9: a two-delta contiguous sequence from
`last_update_id = 100` (`[101,102]` then `[103,103]`), with a level
removal, two upserts of the same price and an ask insertion, agrees with
the cumulative diff at the twice-written price `8` and at the removed
price `10`, and the cursor ends at `103`. -/
theorem C9_sequence_equals_cumulative_diff_witness :
    contig 100 [⟨101, 102, 0, [(10, 0), (8, 5)], [(11, 2)]⟩,
      ⟨103, 103, 0, [(8, 7)], [(12, 3)]⟩] = true ∧
    dictLookup ((handleSeq ⟨fun _ => [(10, 1), (9, 2)], fun _ => [(11, 1)], fun _ => 100⟩
        "BTC/USDT" [⟨101, 102, 0, [(10, 0), (8, 5)], [(11, 2)]⟩,
          ⟨103, 103, 0, [(8, 7)], [(12, 3)]⟩] ⟨0, [], []⟩ 20).bids "BTC/USDT") 8
      = dictLookup (applyEntries [(10, 1), (9, 2)]
          (cumDiff (allBidPairs [⟨101, 102, 0, [(10, 0), (8, 5)], [(11, 2)]⟩,
            ⟨103, 103, 0, [(8, 7)], [(12, 3)]⟩]))) 8 ∧
    dictLookup ((handleSeq ⟨fun _ => [(10, 1), (9, 2)], fun _ => [(11, 1)], fun _ => 100⟩
        "BTC/USDT" [⟨101, 102, 0, [(10, 0), (8, 5)], [(11, 2)]⟩,
          ⟨103, 103, 0, [(8, 7)], [(12, 3)]⟩] ⟨0, [], []⟩ 20).bids "BTC/USDT") 10
      = dictLookup (applyEntries [(10, 1), (9, 2)]
          (cumDiff (allBidPairs [⟨101, 102, 0, [(10, 0), (8, 5)], [(11, 2)]⟩,
            ⟨103, 103, 0, [(8, 7)], [(12, 3)]⟩]))) 10 ∧
    (handleSeq ⟨fun _ => [(10, 1), (9, 2)], fun _ => [(11, 1)], fun _ => 100⟩
        "BTC/USDT" [⟨101, 102, 0, [(10, 0), (8, 5)], [(11, 2)]⟩,
          ⟨103, 103, 0, [(8, 7)], [(12, 3)]⟩] ⟨0, [], []⟩ 20).lastId "BTC/USDT"
      = lastIdAfter 100 [⟨101, 102, 0, [(10, 0), (8, 5)], [(11, 2)]⟩,
          ⟨103, 103, 0, [(8, 7)], [(12, 3)]⟩] :=
  ⟨by decide,
   (C9_sequence_equals_cumulative_diff _ "BTC/USDT" _ _ 20 (by decide)).1 8,
   (C9_sequence_equals_cumulative_diff _ "BTC/USDT" _ _ 20 (by decide)).1 10,
   (C9_sequence_equals_cumulative_diff _ "BTC/USDT" _ _ 20 (by decide)).2.2⟩

/-- **C4** For every order-book state and every incoming depth delta
whose `last_id` is at most the current `last_update_id`, handling the
delta is a no-op: the bid map, the ask map and `last_update_id` are all
unchanged (for every symbol) and no event is emitted. -/
theorem C4_stale_delta_noop (st : ConnState) (sym : String) (msg : DepthMsg)
    (snap : Snapshot) (depthLevels : ℕ) (h : msg.u ≤ st.lastId sym) :
    handleDepth st sym msg snap depthLevels = (st, none, 0) := by
  simp [handleDepth, h]

/-- Witness for C4: a concrete book at `last_update_id = 100` receiving
a delta with `u = 100` is returned untouched, with no event. -/
theorem C4_stale_delta_noop_witness :
    handleDepth ⟨fun _ => [(10, 1)], fun _ => [(11, 1)], fun _ => 100⟩ "BTC/USDT"
        ⟨99, 100, 5, [(10, 2)], []⟩ ⟨123, [], []⟩ 20
      = (⟨fun _ => [(10, 1)], fun _ => [(11, 1)], fun _ => 100⟩, none, 0) ∧
    (100 : ℤ) ≤ 100 :=
  ⟨C4_stale_delta_noop _ _ _ _ _ (by decide), by decide⟩

/-- **C5** For every order-book state and every depth delta with
`last_id > last_update_id` and `first_id > last_update_id + 1`, handling
the delta performs exactly one resync: the symbol's book is replaced by
the freshly downloaded snapshot (the delta itself is not applied), no
event is emitted, and the books of all other symbols are untouched. -/
theorem C5_gap_triggers_single_resync (st : ConnState) (sym : String) (msg : DepthMsg)
    (snap : Snapshot) (depthLevels : ℕ)
    (h1 : st.lastId sym < msg.u) (h2 : st.lastId sym + 1 < msg.U) :
    handleDepth st sym msg snap depthLevels = (resyncSymbol st sym snap, none, 1) ∧
    (resyncSymbol st sym snap).bids sym = initBook snap.bids ∧
    (resyncSymbol st sym snap).asks sym = initBook snap.asks ∧
    (resyncSymbol st sym snap).lastId sym = snap.lastUpdateId ∧
    ∀ s, s ≠ sym →
      (resyncSymbol st sym snap).bids s = st.bids s ∧
      (resyncSymbol st sym snap).asks s = st.asks s ∧
      (resyncSymbol st sym snap).lastId s = st.lastId s := by
  have hnot : ¬ msg.u ≤ st.lastId sym := not_le.mpr h1
  have hgap : ¬ (msg.U ≤ st.lastId sym + 1 ∧ st.lastId sym + 1 ≤ msg.u) := by
    intro hc
    exact absurd hc.1 (not_le.mpr h2)
  refine ⟨by simp [handleDepth, hnot, hgap], by simp [resyncSymbol], by simp [resyncSymbol],
    by simp [resyncSymbol], fun s hs => ⟨?_, ?_, ?_⟩⟩ <;> simp [resyncSymbol, hs]

/-- Witness for C5: from `last_update_id = 100`, the delta `[103, 104]`
has a gap; the book becomes the snapshot book and one resync happens. -/
theorem C5_gap_triggers_single_resync_witness :
    (100 : ℤ) < 104 ∧ (100 : ℤ) + 1 < 103 ∧
    handleDepth ⟨fun _ => [(10, 1)], fun _ => [(11, 1)], fun _ => 100⟩ "BTC/USDT"
        ⟨103, 104, 5, [(10, 2)], []⟩ ⟨200, [(9, 3)], [(12, 4), (13, 0)]⟩ 20
      = (resyncSymbol ⟨fun _ => [(10, 1)], fun _ => [(11, 1)], fun _ => 100⟩ "BTC/USDT"
          ⟨200, [(9, 3)], [(12, 4), (13, 0)]⟩, none, 1) :=
  ⟨by decide, by decide,
   (C5_gap_triggers_single_resync _ _ _ _ _ (by decide) (by decide)).1⟩

/-- **C7** After a contiguous depth delta is applied, if either the bid
side or the ask side of the resulting book is empty, no `DepthUpdate`
event is emitted. -/
theorem C7_empty_side_suppresses_event (st : ConnState) (sym : String) (msg : DepthMsg)
    (snap : Snapshot) (depthLevels : ℕ)
    (h1 : st.lastId sym < msg.u) (h2 : msg.U ≤ st.lastId sym + 1)
    (h3 : applyEntries (st.bids sym) msg.b = [] ∨ applyEntries (st.asks sym) msg.a = []) :
    (handleDepth st sym msg snap depthLevels).2.1 = none := by
  have hnot : ¬ msg.u ≤ st.lastId sym := not_le.mpr h1
  have hok : ¬ ¬ (msg.U ≤ st.lastId sym + 1 ∧ st.lastId sym + 1 ≤ msg.u) :=
    not_not_intro ⟨h2, by omega⟩
  rcases h3 with h3 | h3
  · simp only [handleDepth, if_neg hnot, if_neg hok, applyDelta, h3]
    simp [top_of_book]
  · rcases htb : top_of_book true (applyEntries (st.bids sym) msg.b) with _ | bb
    · simp only [handleDepth, if_neg hnot, if_neg hok, applyDelta, h3]
      simp [htb, top_of_book]
    · simp only [handleDepth, if_neg hnot, if_neg hok, applyDelta, h3]
      simp [htb, top_of_book]

/-- Witness for C7, the spec scenario: snapshot
`{lastUpdateId: 100, bids: [[10.0, 1.0]], asks: [[10.1, 1.0]]}` and the
contiguous delta `{U: 101, u: 101, b: [[10.0, 0.0]], a: []}`: the only
bid level is removed, the best bid becomes absent, `last_update_id`
still advances, and no `DepthUpdate` is emitted. -/
theorem C7_empty_side_suppresses_event_witness :
    (handleDepth ⟨fun _ => initBook [(10, 1)], fun _ => initBook [(101/10, 1)], fun _ => 100⟩
        "BTC/USDT" ⟨101, 101, 7, [(10, 0)], []⟩ ⟨0, [], []⟩ 20).2.1 = none ∧
    top_of_book true
      ((handleDepth ⟨fun _ => initBook [(10, 1)], fun _ => initBook [(101/10, 1)], fun _ => 100⟩
        "BTC/USDT" ⟨101, 101, 7, [(10, 0)], []⟩ ⟨0, [], []⟩ 20).1.bids "BTC/USDT") = none ∧
    (handleDepth ⟨fun _ => initBook [(10, 1)], fun _ => initBook [(101/10, 1)], fun _ => 100⟩
        "BTC/USDT" ⟨101, 101, 7, [(10, 0)], []⟩ ⟨0, [], []⟩ 20).1.lastId "BTC/USDT" = 101 :=
  ⟨C7_empty_side_suppresses_event _ _ _ _ _ (by decide) (by decide) (Or.inl (by decide)),
   by decide, by decide⟩

/-- **C3 counterexample** The claim — two qualifying conditions for the
same key within `cooldown_ms` produce exactly one Alert, and an alert is
emitted only when the elapsed time since the last emission *exceeds* the
cooldown — is false at the boundary: the code's gate is
`now - last >= cooldown`, so with cooldown 4 a first 24h alert at
`t = 201` is followed by a second 24h alert at `t = 205`, exactly
`cooldown` later (elapsed equals, does not exceed, the cooldown). -/
theorem C3_cooldown_counterexample :
    (AlertEngine.check ⟨1/20, 10, 5, 1, 4⟩
        ⟨fun k => if k = ("e", "s") then [((191 : ℤ), (100 : ℚ)), (195, 100)] else [],
          fun _ => 0⟩ "e" "s" 200 (some 201) 0).2 = [⟨"24h", "s", 1, 100, 200⟩] ∧
    (AlertEngine.check ⟨1/20, 10, 5, 1, 4⟩
      (AlertEngine.check ⟨1/20, 10, 5, 1, 4⟩
        ⟨fun k => if k = ("e", "s") then [((191 : ℤ), (100 : ℚ)), (195, 100)] else [],
          fun _ => 0⟩ "e" "s" 200 (some 201) 0).1 "e" "s" 400 (some 205) 0).2
      = [⟨"24h", "s", 3, 100, 400⟩] ∧
    (205 : ℤ) - 201 = (4 : ℤ) ∧ ¬ ((205 : ℤ) - 201 > (4 : ℤ)) :=
  ⟨by decide, by decide, by decide, by decide⟩

/-- **C3** (amended) An alert is emitted only when the elapsed time
since the last recorded emission for its `(exchange, symbol, tag)` is at
least (`≥`, not strictly greater than) the cooldown; consequently, if a
first call emits an alert and a second qualifying call on the same key
occurs strictly within `cooldown_ms` of that emission, the second call
emits no alert of that kind, and the first call emitted exactly one
alert of that kind — exactly one alert for the `(key, kind)` pair across
both calls. -/
theorem C3_cooldown_suppression (cfg : AECfg) (st : AEState) (exch sym : String)
    (p1 p2 : ℚ) (ts1 ts2 : Option ℤ) (w1 w2 : ℤ) (a1 : AEAlert)
    (h1 : a1 ∈ (AlertEngine.check cfg st exch sym p1 ts1 w1).2)
    (hcd : nowOf ts2 w2 - nowOf ts1 w1 < cfg.cooldown) :
    (∀ a2 ∈ (AlertEngine.check cfg (AlertEngine.check cfg st exch sym p1 ts1 w1).1
        exch sym p2 ts2 w2).2, a2.tag ≠ a1.tag) ∧
    ((AlertEngine.check cfg st exch sym p1 ts1 w1).2.filter
        (fun x => x.tag == a1.tag)).length = 1 ∧
    (∀ (st2 : AEState) (p : ℚ) (ts : Option ℤ) (w : ℤ) (a : AEAlert),
      a ∈ (AlertEngine.check cfg st2 exch sym p ts w).2 →
        cfg.cooldown ≤ nowOf ts w - st2.lastAlert (exch, sym, a.tag)) := by
  obtain ⟨_, _, _, hstamp⟩ := check_mem cfg st exch sym p1 ts1 w1 a1 h1
  refine ⟨?_, check_filter_count cfg st exch sym p1 ts1 w1 a1 h1,
    fun st2 p ts w a ha => (check_mem cfg st2 exch sym p ts w a ha).2.2.1⟩
  intro a2 ha2 heq
  obtain ⟨_, _, hgate2, _⟩ := check_mem cfg _ exch sym p2 ts2 w2 a2 ha2
  rw [heq, hstamp] at hgate2
  omega

/-- Witness for C3 (amended): a 24h alert fires at `t = 201`; a second
qualifying tick 3 ms later (cooldown 4) is suppressed — the first call's
24h alert count is one and the second call emits nothing. -/
theorem C3_cooldown_suppression_witness :
    (AlertEngine.check ⟨1/20, 10, 5, 1, 4⟩
        ⟨fun k => if k = ("e", "s") then [((191 : ℤ), (100 : ℚ)), (194, 100)] else [],
          fun _ => 0⟩ "e" "s" 200 (some 201) 0).2 = [⟨"24h", "s", 1, 100, 200⟩] ∧
    nowOf (some 204) 0 - nowOf (some 201) 0 < (4 : ℤ) ∧
    ((AlertEngine.check ⟨1/20, 10, 5, 1, 4⟩
        ⟨fun k => if k = ("e", "s") then [((191 : ℤ), (100 : ℚ)), (194, 100)] else [],
          fun _ => 0⟩ "e" "s" 200 (some 201) 0).2.filter
      (fun x => x.tag == "24h")).length = 1 ∧
    (AlertEngine.check ⟨1/20, 10, 5, 1, 4⟩
      (AlertEngine.check ⟨1/20, 10, 5, 1, 4⟩
        ⟨fun k => if k = ("e", "s") then [((191 : ℤ), (100 : ℚ)), (194, 100)] else [],
          fun _ => 0⟩ "e" "s" 200 (some 201) 0).1 "e" "s" 400 (some 204) 0).2 = [] :=
  ⟨by decide, by decide,
   (C3_cooldown_suppression ⟨1/20, 10, 5, 1, 4⟩
      ⟨fun k => if k = ("e", "s") then [((191 : ℤ), (100 : ℚ)), (194, 100)] else [],
        fun _ => 0⟩ "e" "s" 200 400 (some 201) (some 204) 0 0
      ⟨"24h", "s", 1, 100, 200⟩ (by decide) (by decide)).2.1,
   by decide⟩

/-- **C10** In `AlertEngine.check` the percentage-change division
`(price − ref) / ref` is evaluated only under the Python truthiness
test `if ref_price:`, which is false for `None` and for `0.0`, so every
emitted alert carries a nonzero reference; consequently a window whose
reference price is exactly `0.0` is silently skipped even though a
qualifying sample exists in the (pruned) history, as the concrete
scenario shows. -/
theorem C10_zero_reference_window_skipped :
    (∀ (cfg : AECfg) (st : AEState) (exch sym : String) (price : ℚ)
        (ts : Option ℤ) (wall : ℤ) (a : AEAlert),
      a ∈ (AlertEngine.check cfg st exch sym price ts wall).2 → a.ref ≠ 0) ∧
    (price_at_or_before [((191 : ℤ), (0 : ℚ)), (201, 100)] (201 - 10) = some 0 ∧
      (AlertEngine.check ⟨1/20, 10, 1/20, 1, 0⟩
        ⟨fun k => if k = ("e", "s") then [((191 : ℤ), (0 : ℚ))] else [], fun _ => 0⟩
        "e" "s" 100 (some 201) 0).2 = []) :=
  ⟨fun cfg st exch sym price ts wall a ha =>
    (check_mem cfg st exch sym price ts wall a ha).2.1,
   by decide, by decide⟩

/-- Witness for C10: a concrete call that does emit an alert — its
reference price `50` is nonzero, as the guard guarantees. -/
theorem C10_zero_reference_window_skipped_witness :
    (AlertEngine.check ⟨1/20, 10, 5, 1, 4⟩
        ⟨fun k => if k = ("e", "s") then [((191 : ℤ), (50 : ℚ))] else [], fun _ => 0⟩
        "e" "s" 100 (some 201) 0).2 = [⟨"24h", "s", 1, 50, 100⟩] ∧
    ((⟨"24h", "s", 1, 50, 100⟩ : AEAlert)).ref ≠ 0 :=
  ⟨by decide,
   C10_zero_reference_window_skipped.1 ⟨1/20, 10, 5, 1, 4⟩
     ⟨fun k => if k = ("e", "s") then [((191 : ℤ), (50 : ℚ))] else [], fun _ => 0⟩
     "e" "s" 100 (some 201) 0 ⟨"24h", "s", 1, 50, 100⟩ (by decide)⟩

/-- **C8** For every input event dict — malformed ones included — and
every outcome of the sub-components (file sink, monitors, store, alert
engine), `handle_tick` never propagates an exception to its caller: the
exception component returned to the caller is always `none`, the fault
escaping the body (if any) is exactly the one caught and logged at the
dispatcher boundary, and the effects are those the body performed before
the fault — the triggering event is dropped, not re-raised. -/
theorem C8_handle_tick_never_raises (d : EventDict) (orc : SubOutcomes) :
    (handle_tick d orc).2.2 = none ∧
    (handle_tick d orc).2.1 = (handleTickBody d orc).2 ∧
    (handle_tick d orc).1 = (handleTickBody d orc).1 := by
  rcases h : handleTickBody d orc with ⟨eff, _ | e⟩ <;> simp [handle_tick, h]

/-- **C2 counterexample** A depth event carrying a perfectly valid
`price` field (`10`) is routed to the spread and queue monitors but does
*not* flow into the price-move path: the store is never updated and
`AlertEngine.check` is never invoked, refuting the claimed
depth → price-move link for this dispatcher. -/
theorem C2_counterexample :
    (handle_tick ⟨some "depth", some "binance", some "BTC/USDT",
        some (.num 1111), some (.num 10)⟩
      ⟨none, none, none, none, none, .ok []⟩).1.spreadAddCalled = true ∧
    (handle_tick ⟨some "depth", some "binance", some "BTC/USDT",
        some (.num 1111), some (.num 10)⟩
      ⟨none, none, none, none, none, .ok []⟩).1.qiAddCalled = true ∧
    (handle_tick ⟨some "depth", some "binance", some "BTC/USDT",
        some (.num 1111), some (.num 10)⟩
      ⟨none, none, none, none, none, .ok []⟩).1.storeUpdated = none ∧
    (handle_tick ⟨some "depth", some "binance", some "BTC/USDT",
        some (.num 1111), some (.num 10)⟩
      ⟨none, none, none, none, none, .ok []⟩).1.alertCheckArgs = none :=
  ⟨by decide, by decide, by decide, by decide⟩

/-- **C2** (amended) A normalized event of kind `depth` is routed to the
spread monitor and then the queue monitor only: the spread monitor is
invoked once the archival-sink call returns, the queue monitor once the
spread monitor returns, and the event — whatever its `price` field —
never reaches the store or the price-move engine: no store update, no
`AlertEngine.check` call, no alert dispatched, nothing raised to the
caller. -/
theorem C2_depth_routing (d : EventDict) (orc : SubOutcomes)
    (hd : d.event.getD "ticker" = "depth") :
    (orc.fileSinkAdd = none → (handle_tick d orc).1.spreadAddCalled = true) ∧
    (orc.fileSinkAdd = none → orc.spreadAdd = none →
      (handle_tick d orc).1.qiAddCalled = true) ∧
    (handle_tick d orc).1.storeUpdated = none ∧
    (handle_tick d orc).1.alertCheckArgs = none ∧
    (handle_tick d orc).1.flowAddCalled = false ∧
    (handle_tick d orc).1.dispatched = 0 ∧
    (handle_tick d orc).2.2 = none := by
  have hne : ¬ d.event.getD "ticker" = "trade" := by
    rw [hd]
    decide
  rcases hfs : orc.fileSinkAdd with _ | e
  · rcases hsp : orc.spreadAdd with _ | e2
    · rcases hqi : orc.qiAdd with _ | e3 <;>
        simp [handle_tick, handleTickBody, hfs, hsp, hqi, hd, hne]
    · simp [handle_tick, handleTickBody, hfs, hsp, hd, hne]
  · simp [handle_tick, handleTickBody, hfs]

/-- Witness for C2 (amended): the concrete valid-price depth event with
all collaborators succeeding — both monitors invoked, no store update,
no `check` call. -/
theorem C2_depth_routing_witness :
    ((⟨some "depth", some "binance", some "BTC/USDT", some (.num 1111),
        some (.num 10)⟩ : EventDict)).event.getD "ticker" = "depth" ∧
    (handle_tick ⟨some "depth", some "binance", some "BTC/USDT",
        some (.num 1111), some (.num 10)⟩
      ⟨none, none, none, none, none, .ok [("s", "m")]⟩).1.spreadAddCalled = true ∧
    (handle_tick ⟨some "depth", some "binance", some "BTC/USDT",
        some (.num 1111), some (.num 10)⟩
      ⟨none, none, none, none, none, .ok [("s", "m")]⟩).1.qiAddCalled = true ∧
    (handle_tick ⟨some "depth", some "binance", some "BTC/USDT",
        some (.num 1111), some (.num 10)⟩
      ⟨none, none, none, none, none, .ok [("s", "m")]⟩).1.storeUpdated = none :=
  ⟨rfl,
   (C2_depth_routing ⟨some "depth", some "binance", some "BTC/USDT", some (.num 1111),
      some (.num 10)⟩ ⟨none, none, none, none, none, .ok [("s", "m")]⟩ rfl).1 rfl,
   (C2_depth_routing ⟨some "depth", some "binance", some "BTC/USDT", some (.num 1111),
      some (.num 10)⟩ ⟨none, none, none, none, none, .ok [("s", "m")]⟩ rfl).2.1 rfl rfl,
   (C2_depth_routing ⟨some "depth", some "binance", some "BTC/USDT", some (.num 1111),
      some (.num 10)⟩ ⟨none, none, none, none, none, .ok [("s", "m")]⟩ rfl).2.2.1⟩

end CryptoSupervisor
